import Mathlib

/-!
Verification of the grouping-and-reconciliation engine of the
`drive-deep-clean` repository (files `drive_duplicates.py`,
`drive_similar_images.py`, `gmail_service.py`), as a shallow embedding:
Python dicts of file metadata become structures, the network calls
(`files().get_media`, `files().delete`, `messages().trash`) become boolean /
outcome-valued oracles passed as parameters, and each method's loop becomes a
structurally recursive Lean function producing the same lists in the same
order.  Fields that no analysed property depends on (mimeType, createdTime,
webViewLink, local staging paths, README text, tqdm progress bars) are
omitted; floating point MB figures are modelled by the exact rational
`bytes / (1024*1024)` they are derived from.

Definitions come first, then the lemmas and the per-claim theorems.
-/

namespace DriveDeepClean

/-- One Drive file metadata record, as returned by `files().list` and carried
through `find_duplicates` / `find_similar_images` / the dump-and-delete
executors.  `md5 = none` models a record with no `md5Checksum` key
(Google Docs, Sheets, ...).  The similar-image module uses the same record
shape (its listing simply never populates `md5`). -/
structure DriveFile where
  id : String
  name : String
  size : Nat
  md5 : Option String
  deriving Repr, DecidableEq, Inhabited

/-- Models `file_group[0]` / `files_sorted[0]` of the Python code (the groups it is
applied to are never empty; the default record models the `IndexError`
case). -/
def firstMember (G : List DriveFile) : DriveFile :=
  G.headD default

/-- One insertion step of Python's stable `sorted(..., reverse=True)` on a
`Nat`-valued key: the new element `x` (which comes EARLIER in the original
list than everything in `l`) passes over strictly larger keys and stops in
front of the first element whose key is `≤ key x`, so equal keys keep their
original relative order. -/
def insertDesc {α : Type _} (key : α → Nat) (x : α) : List α → List α
  | [] => [x]
  | y :: ys => if key x < key y then y :: insertDesc key x ys else x :: y :: ys

/-- Python's `sorted(l, key=key, reverse=True)`: stable descending sort. -/
def sortDesc {α : Type _} (key : α → Nat) : List α → List α
  | [] => []
  | x :: xs => insertDesc key x (sortDesc key xs)

/-- The first element of the list attaining the maximal key (specification
device used to characterise the head of `sortDesc`). -/
def firstMaxBy {α : Type _} (key : α → Nat) : List α → Option α
  | [] => none
  | x :: xs =>
    match firstMaxBy key xs with
    | none => some x
    | some y => if key x < key y then some y else some x

namespace DriveDuplicates

/-- One step of the `for file in files` loop of
`DriveDuplicateFinder.find_duplicates`: `hash_map[md5].append(file)`.
The insertion-ordered dict is modelled as an association list; the file is
appended to the bucket of `h`, the bucket being created at the end when
absent. -/
def insertFile (m : List (String × List DriveFile)) (h : String) (f : DriveFile) :
    List (String × List DriveFile) :=
  match m with
  | [] => [(h, [f])]
  | (k, fs) :: rest =>
    if k = h then (k, fs ++ [f]) :: rest else (k, fs) :: insertFile rest h f

/-- The `hash_map` built by `find_duplicates`: files with an `md5Checksum`
are appended to their hash's bucket, files without one are skipped. -/
def hashMap (files : List DriveFile) : List (String × List DriveFile) :=
  files.foldl
    (fun m f =>
      match f.md5 with
      | some h => insertFile m h f
      | none => m)
    []

/-- The `files_without_hash` counter incremented in the same loop. -/
def files_without_hash (files : List DriveFile) : Nat :=
  files.foldl
    (fun n f =>
      match f.md5 with
      | some _ => n
      | none => n + 1)
    0

/-- Embeds `DriveDuplicateFinder.find_duplicates`: keep only the buckets with more
than one member (`if len(file_list) > 1`). -/
def find_duplicates (files : List DriveFile) : List (String × List DriveFile) :=
  (hashMap files).filter (fun p => 1 < p.2.length)

/-- Fetch the bucket of hash `h`, `[]` when absent (dict lookup). -/
def lookupBucket (m : List (String × List DriveFile)) (h : String) : List DriveFile :=
  match m with
  | [] => []
  | (k, fs) :: rest => if k = h then fs else lookupBucket rest h

/-- Keys of the association list modelling the dict. -/
def bucketKeys (m : List (String × List DriveFile)) : List String :=
  m.map (fun p => p.1)

/-- One entry of the `duplicate_groups` list built by
`DriveDuplicateFinder.calculate_wasted_space` (the derived float fields
`file_size_mb` / `wasted_mb` are the byte fields divided by 2^20 and are not
stored separately). -/
structure DupGroupInfo where
  filename : String
  file_size_bytes : Nat
  num_copies : Nat
  wasted_bytes : Nat
  files : List DriveFile
  md5 : String
  deriving Repr, DecidableEq, Inhabited

/-- The entry built for one group: `file_size = int(file_group[0].get('size', 0))`,
`wasted_size = file_size * (num_duplicates - 1)`. -/
def dupGroupInfo (h : String) (G : List DriveFile) : DupGroupInfo :=
  { filename := (firstMember G).name
    file_size_bytes := (firstMember G).size
    num_copies := G.length
    wasted_bytes := (firstMember G).size * (G.length - 1)
    files := G
    md5 := h }

/-- The loop body of `calculate_wasted_space`: groups whose first member has
size 0 (unknown size) are skipped (`if file_size == 0: continue`) BEFORE any
counter is incremented. -/
def dupInfos (dups : List (String × List DriveFile)) : List DupGroupInfo :=
  dups.filterMap
    (fun p =>
      if (firstMember p.2).size = 0 then none
      else some (dupGroupInfo p.1 p.2))

/-- The statistics dict returned by `calculate_wasted_space` (derived
`total_wasted_mb`/`total_wasted_gb` floats are the byte total divided by
2^20 / 2^30 and are not stored separately). -/
structure DupStats where
  total_duplicate_files : Nat
  total_duplicate_groups : Nat
  total_wasted_bytes : Nat
  duplicate_groups : List DupGroupInfo
  deriving Repr, DecidableEq, Inhabited

/-- Embeds `DriveDuplicateFinder.calculate_wasted_space`: accumulate the two
counters over the non-skipped groups, report `len(duplicates)` as the group
count, and sort the group entries by wasted space, biggest first (stable
Python sort). -/
def calculate_wasted_space (dups : List (String × List DriveFile)) : DupStats :=
  { total_duplicate_files := ((dupInfos dups).map (fun g => g.num_copies)).sum
    total_duplicate_groups := dups.length
    total_wasted_bytes := ((dupInfos dups).map (fun g => g.wasted_bytes)).sum
    duplicate_groups := sortDesc (fun g => g.wasted_bytes) (dupInfos dups) }

end DriveDuplicates

namespace SimilarImages

/-- Hamming distance between two bit-lists: the number of positions where
they differ.  This is `hash_1 - hash_2` of the `imagehash` library for the
8×8 average hash (64 bits). -/
def hamming : List Bool → List Bool → Nat
  | a :: as, b :: bs => (if a = b then 0 else 1) + hamming as bs
  | _, _ => 0

/-- Computes `similarity = 1.0 - (difference / max_difference)` with
`max_difference = 64`, computed exactly in ℚ. -/
def similarity (h1 h2 : List Bool) : ℚ :=
  1 - (hamming h1 h2 : ℚ) / 64

/-- The inner loop of `SimilarImageFinder.find_similar_images`: scan the ids
after the anchor, skip those already in `processed`, and collect every id
whose similarity to the ANCHOR's hash `h1` reaches the threshold, adding it
to `processed`.  Returns the collected ids (in scan order) and the updated
`processed` set (modelled as a list, membership only). -/
def innerScan (hashOf : String → List Bool) (thr : ℚ) (h1 : List Bool) :
    List String → List String → List String × List String
  | [], processed => ([], processed)
  | id2 :: rest, processed =>
    if id2 ∈ processed then innerScan hashOf thr h1 rest processed
    else if thr ≤ similarity h1 (hashOf id2) then
      let r := innerScan hashOf thr h1 rest (id2 :: processed)
      (id2 :: r.1, r.2)
    else innerScan hashOf thr h1 rest processed

/-- The outer loop of `find_similar_images`: each not-yet-processed id
becomes an anchor, is marked processed, collects its similar successors via
`innerScan`, and the group is emitted only when it has more than one member
(`if len(group) > 1`).  Groups hold the file records via `file_lookup`. -/
def outerLoop (lookup : String → DriveFile) (hashOf : String → List Bool)
    (thr : ℚ) : List String → List String → List (String × List DriveFile)
  | [], _ => []
  | id1 :: rest, processed =>
    if id1 ∈ processed then outerLoop lookup hashOf thr rest processed
    else
      let r := innerScan hashOf thr (hashOf id1) rest (id1 :: processed)
      let group := lookup id1 :: r.1.map lookup
      if 1 < group.length then
        (id1, group) :: outerLoop lookup hashOf thr rest r.2
      else outerLoop lookup hashOf thr rest r.2

/-- Embeds `SimilarImageFinder.find_similar_images`: `file_lookup` resolves ids to
records (`{f['id']: f for f in files}`), the iteration order is the key
order of the `hashes` dict (hash-computation order = listing order), and the
similarity threshold comes from the finder.  A lookup of an id absent from
`files` (impossible in the pipeline, a `KeyError` in Python) is modelled by
a default record. -/
def find_similar_images (files : List DriveFile)
    (hashes : List (String × List Bool)) (thr : ℚ) :
    List (String × List DriveFile) :=
  outerLoop
    (fun id => (files.find? (fun f => f.id == id)).getD default)
    (fun id => ((hashes.find? (fun p => p.1 == id)).map (fun p => p.2)).getD [])
    thr (hashes.map (fun p => p.1)) []

/-- One entry of the `groups_info` list built by
`SimilarImageFinder.calculate_wasted_space` (float `*_mb` fields are the
byte values divided by 2^20; `wasted_bytes` is the integer
`total_group_size - keeper_size` those floats are derived from). -/
structure SimGroupInfo where
  keeper : DriveFile
  similar_files : List DriveFile
  num_similar : Nat
  wasted_bytes : Nat
  files : List DriveFile
  hash : String
  deriving Repr, DecidableEq, Inhabited

/-- The entry built for one similar group: members sorted by size descending
(stable), the keeper is `files_sorted[0]`, and the `hash` key is recovered as
the first group key whose member list equals this group's (the Python
`list(keys)[list(values).index(files)]` idiom). -/
def simGroupInfo (sgroups : List (String × List DriveFile)) (gid : String)
    (G : List DriveFile) : SimGroupInfo :=
  { keeper := firstMember (sortDesc (fun f => f.size) G)
    similar_files := (sortDesc (fun f => f.size) G).tail
    num_similar := G.length
    wasted_bytes :=
      (G.map (fun f => f.size)).sum - (firstMember (sortDesc (fun f => f.size) G)).size
    files := sortDesc (fun f => f.size) G
    hash := ((sgroups.find? (fun p => p.2 == G)).getD (gid, G)).1 }

/-- The `groups_info` list: one entry per group, no group is skipped. -/
def simInfos (sgroups : List (String × List DriveFile)) : List SimGroupInfo :=
  sgroups.map (fun p => simGroupInfo sgroups p.1 p.2)

/-- The statistics dict returned by the similar-image
`calculate_wasted_space`. -/
structure SimStats where
  total_similar_files : Nat
  total_groups : Nat
  total_wasted_bytes : Nat
  similar_groups : List SimGroupInfo
  deriving Repr, DecidableEq, Inhabited

/-- Embeds `SimilarImageFinder.calculate_wasted_space`: every group contributes its
member count and its `total - keeper` bytes; entries sorted by wasted space
descending. -/
def calculate_wasted_space (sgroups : List (String × List DriveFile)) : SimStats :=
  { total_similar_files := ((simInfos sgroups).map (fun g => g.num_similar)).sum
    total_groups := sgroups.length
    total_wasted_bytes := ((simInfos sgroups).map (fun g => g.wasted_bytes)).sum
    similar_groups := sortDesc (fun g => g.wasted_bytes) (simInfos sgroups) }

end SimilarImages

/-- Outcome of one `files().delete` call at the Remote Catalog boundary.
`DriveDuplicateFinder.delete_file` / `SimilarImageFinder.delete_file`
collapse it to a Bool (`except HttpError: return False`,
`except Exception: return False`). -/
inductive DeleteOutcome where
  | success
  | permissionDenied
  | otherFailure
  deriving Repr, DecidableEq

/-- Embeds `delete_file` of both Drive modules: `True` on success, `False` on ANY
exception (permission errors and all other failures alike). -/
def delete_file (o : DeleteOutcome) : Bool :=
  match o with
  | DeleteOutcome.success => true
  | DeleteOutcome.permissionDenied => false
  | DeleteOutcome.otherFailure => false

/-- Events of the network-visible execution trace of a Drive
dump-and-delete run, identified by the remote object id. -/
inductive Ev where
  | downloadAttempt (id : String)
  | downloadOk (id : String)
  | downloadFail (id : String)
  | deleteAttempt (id : String)
  | deleteOk (id : String)
  | deleteFail (id : String)
  deriving Repr, DecidableEq

/-- One record of the `downloaded` list (the `local_path` / `created` string
fields are not modelled). -/
structure DlRec where
  id : String
  name : String
  size : Nat
  deriving Repr, DecidableEq

/-- One record of the `skipped_no_permission` / `failed` lists. -/
structure SkipRec where
  id : String
  name : String
  reason : String
  deriving Repr, DecidableEq

/-- The four bookkeeping lists built by a dump-and-delete loop plus the
execution trace of remote calls (in execution order). -/
structure DumpResult where
  downloaded : List DlRec
  deleted_from_drive : List String
  skipped_no_permission : List SkipRec
  failed : List SkipRec
  trace : List Ev
  deriving Repr, DecidableEq

/-- The `for i, file in enumerate(files)` loop shared verbatim by
`DriveDuplicateFinder.dump_and_delete_duplicates` and
`SimilarImageFinder.dump_and_delete_similar` (the two Python bodies differ
only in the local staging filename/README text, which are not modelled):
skip the survivor at `keep`; download; on download success append to
`downloaded` and attempt the delete, appending to `deleted_from_drive` or
`skipped_no_permission` with reason `'no_permission'`; on download failure
append to `failed` with reason `'download_failed'` and attempt no delete.
`download` and `del` are the Remote Catalog oracles, by object id. -/
def dumpLoop (download : String → Bool) (del : String → DeleteOutcome)
    (keep : Nat) : Nat → List DriveFile → DumpResult
  | _, [] => ⟨[], [], [], [], []⟩
  | i, f :: fs =>
    let r := dumpLoop download del keep (i + 1) fs
    if i = keep then r
    else if download f.id then
      if delete_file (del f.id) then
        { r with
          downloaded := ⟨f.id, f.name, f.size⟩ :: r.downloaded
          deleted_from_drive := f.id :: r.deleted_from_drive
          trace := Ev.downloadAttempt f.id :: Ev.downloadOk f.id ::
            Ev.deleteAttempt f.id :: Ev.deleteOk f.id :: r.trace }
      else
        { r with
          downloaded := ⟨f.id, f.name, f.size⟩ :: r.downloaded
          skipped_no_permission := ⟨f.id, f.name, "no_permission"⟩ :: r.skipped_no_permission
          trace := Ev.downloadAttempt f.id :: Ev.downloadOk f.id ::
            Ev.deleteAttempt f.id :: Ev.deleteFail f.id :: r.trace }
    else
      { r with
        failed := ⟨f.id, f.name, "download_failed"⟩ :: r.failed
        trace := Ev.downloadAttempt f.id :: Ev.downloadFail f.id :: r.trace }

/-- Embeds `DriveDuplicateFinder.dump_and_delete_duplicates` applied to
`duplicate_group['files']` with `keep_index`. -/
def dump_and_delete_duplicates (download : String → Bool)
    (del : String → DeleteOutcome) (files : List DriveFile) (keep : Nat) :
    DumpResult :=
  dumpLoop download del keep 0 files

/-- Embeds `SimilarImageFinder.dump_and_delete_similar` applied to
`similar_group['files']` with `keep_index` (same loop, see `dumpLoop`). -/
def dump_and_delete_similar (download : String → Bool)
    (del : String → DeleteOutcome) (files : List DriveFile) (keep : Nat) :
    DumpResult :=
  dumpLoop download del keep 0 files

/-- Embeds `space_freed_bytes` of both Drive executors:
`sum(d['size'] for d in downloaded if d['id'] in deleted_from_drive)`. -/
def space_freed_bytes (r : DumpResult) : Nat :=
  ((r.downloaded.filter (fun d => d.id ∈ r.deleted_from_drive)).map
    (fun d => d.size)).sum

/-- The spec's per-member disposal outcome. -/
inductive DisposalOutcome where
  | kept
  | downloadedAndDeleted
  | downloadedPermissionDenied
  | downloadFailed
  deriving Repr, DecidableEq

/-- Modelled from the spec: the disposal outcome of the member at index `i`,
determined by the survivor index and the two oracles. -/
def memberOutcome (download : String → Bool) (del : String → DeleteOutcome)
    (keep : Nat) (i : Nat) (f : DriveFile) : DisposalOutcome :=
  if i = keep then DisposalOutcome.kept
  else if download f.id then
    if delete_file (del f.id) then DisposalOutcome.downloadedAndDeleted
    else DisposalOutcome.downloadedPermissionDenied
  else DisposalOutcome.downloadFailed

/-- Modelled from the spec: "bytes freed = sum of sizes of
DownloadedAndDeleted members only", summed from member index `i` on. -/
def specFreedBytesFrom (download : String → Bool) (del : String → DeleteOutcome)
    (keep : Nat) : Nat → List DriveFile → Nat
  | _, [] => 0
  | i, f :: fs =>
    (if memberOutcome download del keep i f = DisposalOutcome.downloadedAndDeleted
      then f.size else 0)
      + specFreedBytesFrom download del keep (i + 1) fs

/-- Modelled from the spec: total freed bytes of a group run. -/
def specFreedBytes (download : String → Bool) (del : String → DeleteOutcome)
    (keep : Nat) (files : List DriveFile) : Nat :=
  specFreedBytesFrom download del keep 0 files

/-- Checks the download-before-delete safety property over a trace: every
`deleteAttempt id` must be preceded by a `downloadOk id`.  `dl` accumulates
the ids already downloaded successfully. -/
def safeTraceAux : List Ev → List String → Bool
  | [], _ => true
  | Ev.deleteAttempt id :: tr, dl => decide (id ∈ dl) && safeTraceAux tr dl
  | Ev.downloadOk id :: tr, dl => safeTraceAux tr (id :: dl)
  | _ :: tr, dl => safeTraceAux tr dl

/-- One Gmail attachment record (`size` in bytes, the derived `size_mb`
float is `size / 2^20`). -/
structure GAttachment where
  id : String
  filename : String
  size : Nat
  deriving Repr, DecidableEq

/-- One email record as assembled by `get_message_details`:
`total_attachment_size_bytes` is the field stored in the dict (computed
there as the sum of the large attachments' sizes). -/
structure GEmail where
  id : String
  subject : String
  attachments : List GAttachment
  total_attachment_size_bytes : Nat
  deriving Repr, DecidableEq

/-- Events of the network-visible trace of one
`dump_and_delete_emails` run. -/
inductive GEv where
  | attDownloadAttempt (msgId attId : String)
  | attDownloadOk (msgId attId : String)
  | attDownloadFail (msgId attId : String)
  | trashAttempt (msgId : String)
  | trashOk (msgId : String)
  | trashFail (msgId : String)
  deriving Repr, DecidableEq

/-- One record of the Gmail `downloaded` list (`local_path` not modelled). -/
structure GDlRec where
  filename : String
  size : Nat
  deriving Repr, DecidableEq

/-- The attachment loop of `GmailAttachmentScanner.dump_and_delete_emails`:
download each attachment, recording successes in `downloaded` and failures
(by filename) in `failed`. -/
def gmailAttLoop (downloadAtt : String → String → Bool) (msgId : String) :
    List GAttachment → List GDlRec × List String × List GEv
  | [] => ([], [], [])
  | a :: rest =>
    let r := gmailAttLoop downloadAtt msgId rest
    if downloadAtt msgId a.id then
      (⟨a.filename, a.size⟩ :: r.1, r.2.1,
        GEv.attDownloadAttempt msgId a.id :: GEv.attDownloadOk msgId a.id :: r.2.2)
    else
      (r.1, a.filename :: r.2.1,
        GEv.attDownloadAttempt msgId a.id :: GEv.attDownloadFail msgId a.id :: r.2.2)

/-- The result dict of `dump_and_delete_emails`. -/
structure GmailResult where
  downloaded : List GDlRec
  failed : List String
  deleted : Bool
  space_freed_mb : ℚ
  trace : List GEv
  deriving Repr, DecidableEq

/-- Embeds `GmailAttachmentScanner.dump_and_delete_emails`: download every large
attachment, then call `delete_email` (trash) on the message
UNCONDITIONALLY — the Python code runs `deleted = self.delete_email(msg_id)`
after the loop whether or not any download failed — and report
`space_freed_mb = total_attachment_size_mb if deleted else 0`.
`downloadAtt msgId attId` and `trash msgId` are the mailbox oracles. -/
def dump_and_delete_emails (downloadAtt : String → String → Bool)
    (trash : String → Bool) (email : GEmail) : GmailResult :=
  let r := gmailAttLoop downloadAtt email.id email.attachments
  let deleted := trash email.id
  { downloaded := r.1
    failed := r.2.1
    deleted := deleted
    space_freed_mb :=
      if deleted then (email.total_attachment_size_bytes : ℚ) / (1024 * 1024) else 0
    trace := r.2.2 ++
      [GEv.trashAttempt email.id,
        if deleted then GEv.trashOk email.id else GEv.trashFail email.id] }

namespace DriveDuplicates

theorem lookupBucket_insertFile_same (m : List (String × List DriveFile))
    (h : String) (f : DriveFile) :
    lookupBucket (insertFile m h f) h = lookupBucket m h ++ [f] := by
  induction m with
  | nil => simp [insertFile, lookupBucket]
  | cons p rest ih =>
    obtain ⟨k, fs⟩ := p
    by_cases hk : k = h
    · simp [insertFile, lookupBucket, hk]
    · simp [insertFile, lookupBucket, hk, ih]

theorem lookupBucket_insertFile_other (m : List (String × List DriveFile))
    (h h' : String) (f : DriveFile) (hne : h' ≠ h) :
    lookupBucket (insertFile m h f) h' = lookupBucket m h' := by
  induction m with
  | nil => simp [insertFile, lookupBucket, Ne.symm hne]
  | cons p rest ih =>
    obtain ⟨k, fs⟩ := p
    by_cases hk : k = h
    · subst hk
      simp [insertFile, lookupBucket, Ne.symm hne]
    · by_cases hk' : k = h'
      · simp [insertFile, lookupBucket, hk, hk', hne]
      · simp [insertFile, lookupBucket, hk, hk', ih]

theorem lookupBucket_foldl (files : List DriveFile)
    (m : List (String × List DriveFile)) (h : String) :
    lookupBucket
        (files.foldl
          (fun m f =>
            match f.md5 with
            | some h => insertFile m h f
            | none => m)
          m) h
      = lookupBucket m h ++ files.filter (fun f => f.md5 == some h) := by
  induction files generalizing m with
  | nil => simp
  | cons f fs ih =>
    rw [List.foldl_cons, ih]
    match hf : f.md5 with
    | none => simp [List.filter_cons, hf]
    | some h0 =>
      by_cases hh : h0 = h
      · subst hh
        simp [List.filter_cons, hf, lookupBucket_insertFile_same]
      · simp [List.filter_cons, hf, hh,
          lookupBucket_insertFile_other m h0 h f (Ne.symm hh)]

/-- The bucket of `h` in `hash_map` is exactly the input files carrying
`md5Checksum = h`, in input order. -/
theorem lookupBucket_hashMap (files : List DriveFile) (h : String) :
    lookupBucket (hashMap files) h = files.filter (fun f => f.md5 == some h) := by
  simpa [hashMap, lookupBucket] using lookupBucket_foldl files [] h

theorem bucketKeys_insertFile (m : List (String × List DriveFile))
    (h : String) (f : DriveFile) :
    bucketKeys (insertFile m h f) = bucketKeys m ∨
      (bucketKeys (insertFile m h f) = bucketKeys m ++ [h] ∧ h ∉ bucketKeys m) := by
  induction m with
  | nil => right; simp [insertFile, bucketKeys]
  | cons p rest ih =>
    obtain ⟨k, fs⟩ := p
    by_cases hk : k = h
    · left; simp [insertFile, bucketKeys, hk]
    · rcases ih with ih | ⟨ih1, ih2⟩
      · left; simp [insertFile, bucketKeys, hk] at ih ⊢
        exact ih
      · right
        constructor
        · simp [insertFile, bucketKeys, hk] at ih1 ⊢
          exact ih1
        · simp [bucketKeys] at ih2 ⊢
          exact ⟨fun e => hk e.symm, ih2⟩

theorem nodup_bucketKeys_insertFile (m : List (String × List DriveFile))
    (h : String) (f : DriveFile) (hm : (bucketKeys m).Nodup) :
    (bucketKeys (insertFile m h f)).Nodup := by
  rcases bucketKeys_insertFile m h f with he | ⟨he, hni⟩
  · rw [he]; exact hm
  · rw [he]
    exact hm.append (List.nodup_singleton h)
      (fun a ha hb => hni ((List.mem_singleton.mp hb) ▸ ha))

theorem nodup_bucketKeys_hashMap (files : List DriveFile) :
    (bucketKeys (hashMap files)).Nodup := by
  have main : ∀ (fs : List DriveFile) (m : List (String × List DriveFile)),
      (bucketKeys m).Nodup →
      (bucketKeys
        (fs.foldl
          (fun m f =>
            match f.md5 with
            | some h => insertFile m h f
            | none => m)
          m)).Nodup := by
    intro fs
    induction fs with
    | nil => intro m hm; simpa using hm
    | cons f fs ih =>
      intro m hm
      rw [List.foldl_cons]
      apply ih
      match f.md5 with
      | none => exact hm
      | some h => exact nodup_bucketKeys_insertFile m h f hm
  exact main files [] (by simp [bucketKeys])

theorem eq_lookupBucket_of_mem (m : List (String × List DriveFile))
    (h : String) (G : List DriveFile)
    (hmem : (h, G) ∈ m) (hnd : (bucketKeys m).Nodup) :
    G = lookupBucket m h := by
  induction m with
  | nil => cases hmem
  | cons p rest ih =>
    obtain ⟨k, fs⟩ := p
    have h1 : k ∉ bucketKeys rest ∧ (bucketKeys rest).Nodup := by
      simpa [bucketKeys, List.nodup_cons] using hnd
    rcases List.mem_cons.mp hmem with he | hmem'
    · cases he
      simp [lookupBucket]
    · have hk : k ≠ h := by
        intro e
        subst e
        exact h1.1 (List.mem_map.mpr ⟨(k, G), hmem', rfl⟩)
      simp [lookupBucket, hk]
      exact ih hmem' h1.2

theorem mem_of_lookupBucket_ne_nil (m : List (String × List DriveFile))
    (h : String) (hne : lookupBucket m h ≠ []) :
    (h, lookupBucket m h) ∈ m := by
  induction m with
  | nil => simp [lookupBucket] at hne
  | cons p rest ih =>
    obtain ⟨k, fs⟩ := p
    by_cases hk : k = h
    · subst hk
      simp [lookupBucket]
    · simp [lookupBucket, hk] at hne ⊢
      right
      exact ih hne

/-- Members of an emitted duplicate group are exactly the input files whose
`md5Checksum` equals the group's hash, and only buckets with more than one
member are emitted. -/
theorem mem_find_duplicates_iff (files : List DriveFile) (h : String)
    (G : List DriveFile) :
    (h, G) ∈ find_duplicates files ↔
      G = files.filter (fun f => f.md5 == some h) ∧ 1 < G.length := by
  constructor
  · intro hm
    have hm' := List.mem_filter.mp hm
    have hG : G = lookupBucket (hashMap files) h :=
      eq_lookupBucket_of_mem _ _ _ hm'.1 (nodup_bucketKeys_hashMap files)
    refine ⟨hG.trans (lookupBucket_hashMap files h), ?_⟩
    simpa using hm'.2
  · rintro ⟨hG, hlen⟩
    apply List.mem_filter.mpr
    refine ⟨?_, by simpa using hlen⟩
    have hne : lookupBucket (hashMap files) h ≠ [] := by
      rw [lookupBucket_hashMap, ← hG]
      intro e
      rw [e] at hlen
      simp at hlen
    have hmem := mem_of_lookupBucket_ne_nil (hashMap files) h hne
    rwa [lookupBucket_hashMap, ← hG] at hmem

theorem two_le_countP_of_get? {α : Type _} (p : α → Bool) (l : List α)
    (i j : Nat) (a b : α) (hij : i < j)
    (ha : l.get? i = some a) (hb : l.get? j = some b)
    (hpa : p a = true) (hpb : p b = true) :
    2 ≤ l.countP p := by
  induction l generalizing i j with
  | nil => simp at hb
  | cons x xs ih =>
    cases j with
    | zero => omega
    | succ j =>
      cases i with
      | zero =>
        have hax : a = x := by
          have := ha
          simp at this
          exact this.symm
        have hb' : xs.get? j = some b := by simpa using hb
        have h1 : 0 < xs.countP p := by
          rw [List.countP_pos_iff]
          exact ⟨b, List.get?_mem hb', hpb⟩
        have h2 : (x :: xs).countP p = xs.countP p + 1 := by
          simp [List.countP_cons, hax ▸ hpa]
        omega
      | succ i =>
        have h1 := ih i j (by omega) (by simpa using ha) (by simpa using hb)
        have h2 : xs.countP p ≤ (x :: xs).countP p := by
          simp only [List.countP_cons]
          omega
        omega

theorem files_without_hash_foldl (files : List DriveFile) (n : Nat) :
    files.foldl
        (fun n f =>
          match f.md5 with
          | some _ => n
          | none => n + 1)
        n
      = n + (files.filter (fun f => f.md5 == none)).length := by
  induction files generalizing n with
  | nil => simp
  | cons f fs ih =>
    rw [List.foldl_cons, ih]
    match hf : f.md5 with
    | none => simp [List.filter_cons, hf]; omega
    | some h0 => simp [List.filter_cons, hf]

/-- C2: two records land in the same exact-duplicate group iff both carry an
`md5Checksum` and the checksums are equal; a record without a checksum never
appears in any group (every group member's hash equals the group key), and
such records are tallied by the `files_without_hash` counter. -/
theorem c2_exact_grouping (files : List DriveFile) (h : String) :
    (∀ G, (h, G) ∈ find_duplicates files → ∀ f ∈ G, f.md5 = some h) ∧
    (∀ i j : Fin files.length, i ≠ j →
      (files.get i).md5 = some h → (files.get j).md5 = some h →
      ∃ G, (h, G) ∈ find_duplicates files ∧ files.get i ∈ G ∧ files.get j ∈ G) ∧
    files_without_hash files = (files.filter (fun f => f.md5 == none)).length := by
  refine ⟨?_, ?_, ?_⟩
  · intro G hG f hf
    obtain ⟨hGe, _⟩ := (mem_find_duplicates_iff files h G).mp hG
    rw [hGe] at hf
    have := (List.mem_filter.mp hf).2
    simpa using this
  · intro i j hij hmi hmj
    have key : ∀ a b : Fin files.length, a.val < b.val →
        (files.get a).md5 = some h → (files.get b).md5 = some h →
        1 < (files.filter (fun f => f.md5 == some h)).length := by
      intro a b hab hma hmb
      have h2 : 2 ≤ files.countP (fun f => f.md5 == some h) := by
        refine two_le_countP_of_get? _ files a.val b.val (files.get a) (files.get b)
          hab (List.get?_eq_get a.isLt) (List.get?_eq_get b.isLt) ?_ ?_
        · simpa using hma
        · simpa using hmb
      rw [List.countP_eq_length_filter] at h2
      omega
    have hlen : 1 < (files.filter (fun f => f.md5 == some h)).length := by
      rcases Nat.lt_or_ge i.val j.val with hlt | hge
      · exact key i j hlt hmi hmj
      · have hlt : j.val < i.val :=
          Nat.lt_of_le_of_ne hge (fun e => hij (Fin.ext e.symm))
        exact key j i hlt hmj hmi
    refine ⟨files.filter (fun f => f.md5 == some h),
      (mem_find_duplicates_iff files h _).mpr ⟨rfl, hlen⟩, ?_, ?_⟩
    · exact List.mem_filter.mpr ⟨List.get_mem .., by simpa using hmi⟩
    · exact List.mem_filter.mpr ⟨List.get_mem .., by simpa using hmj⟩
  · simpa using files_without_hash_foldl files 0

/-- Witness for C2 at a concrete input: three files, the first and third
sharing hash "h", the second lacking a hash. -/
theorem c2_exact_grouping_witness :
    ∃ G, ("h", G) ∈ find_duplicates
        [⟨"a", "n1", 3, some "h"⟩, ⟨"b", "n2", 4, none⟩, ⟨"c", "n3", 3, some "h"⟩] ∧
      (⟨"a", "n1", 3, some "h"⟩ : DriveFile) ∈ G ∧
      (⟨"c", "n3", 3, some "h"⟩ : DriveFile) ∈ G := by
  have := (c2_exact_grouping
      [⟨"a", "n1", 3, some "h"⟩, ⟨"b", "n2", 4, none⟩, ⟨"c", "n3", 3, some "h"⟩]
      "h").2.1 ⟨0, by decide⟩ ⟨2, by decide⟩ (by decide) (by decide) (by decide)
  simpa using this

end DriveDuplicates

theorem mem_insertDesc {α : Type _} (key : α → Nat) (x a : α) (l : List α) :
    a ∈ insertDesc key x l ↔ a = x ∨ a ∈ l := by
  induction l with
  | nil => simp [insertDesc]
  | cons y ys ih =>
    by_cases hk : key x < key y
    · simp [insertDesc, hk, ih]
      tauto
    · simp [insertDesc, hk]

theorem mem_sortDesc {α : Type _} (key : α → Nat) (a : α) (l : List α) :
    a ∈ sortDesc key l ↔ a ∈ l := by
  induction l with
  | nil => simp [sortDesc]
  | cons x xs ih => simp [sortDesc, mem_insertDesc, ih]

theorem length_insertDesc {α : Type _} (key : α → Nat) (x : α) (l : List α) :
    (insertDesc key x l).length = l.length + 1 := by
  induction l with
  | nil => simp [insertDesc]
  | cons y ys ih =>
    by_cases hk : key x < key y <;> simp [insertDesc, hk, ih]

theorem length_sortDesc {α : Type _} (key : α → Nat) (l : List α) :
    (sortDesc key l).length = l.length := by
  induction l with
  | nil => rfl
  | cons x xs ih => simp [sortDesc, length_insertDesc, ih]

theorem head?_insertDesc {α : Type _} (key : α → Nat) (x : α) (l : List α) :
    (insertDesc key x l).head? =
      some
        (match l.head? with
          | none => x
          | some y => if key x < key y then y else x) := by
  cases l with
  | nil => simp [insertDesc]
  | cons y ys =>
    by_cases hk : key x < key y
    · simp [insertDesc, hk]
    · simp [insertDesc, hk]

theorem sortDesc_head?_eq_firstMaxBy {α : Type _} (key : α → Nat) (l : List α) :
    (sortDesc key l).head? = firstMaxBy key l := by
  induction l with
  | nil => rfl
  | cons x xs ih =>
    show (insertDesc key x (sortDesc key xs)).head? = _
    rw [head?_insertDesc, ih]
    cases hr : firstMaxBy key xs with
    | none => simp [firstMaxBy, hr]
    | some y =>
      simp only [firstMaxBy, hr]
      by_cases hk : key x < key y <;> simp [hk]

theorem firstMaxBy_eq_none_iff {α : Type _} (key : α → Nat) (l : List α) :
    firstMaxBy key l = none ↔ l = [] := by
  cases l with
  | nil => simp [firstMaxBy]
  | cons x xs =>
    constructor
    · intro h
      exfalso
      simp only [firstMaxBy] at h
      cases hr : firstMaxBy key xs with
      | none => rw [hr] at h; simp at h
      | some y =>
        rw [hr] at h
        by_cases hk : key x < key y <;> simp [hk] at h
    · intro h; cases h

theorem firstMaxBy_mem {α : Type _} (key : α → Nat) :
    ∀ (l : List α) (y : α), firstMaxBy key l = some y → y ∈ l := by
  intro l
  induction l with
  | nil => intro y h; cases h
  | cons x xs ih =>
    intro y h
    simp only [firstMaxBy] at h
    cases hr : firstMaxBy key xs with
    | none =>
      rw [hr] at h
      have hxy : x = y := Option.some.inj h
      rw [← hxy]
      exact List.mem_cons_self x xs
    | some w =>
      rw [hr] at h
      have h' : (if key x < key w then some w else some x) = some y := h
      by_cases hk : key x < key w
      · rw [if_pos hk] at h'
        have hwy : w = y := Option.some.inj h'
        exact List.mem_cons_of_mem _ (ih y (hwy ▸ hr))
      · rw [if_neg hk] at h'
        have hxy : x = y := Option.some.inj h'
        rw [← hxy]
        exact List.mem_cons_self x xs

theorem le_of_firstMaxBy {α : Type _} (key : α → Nat) :
    ∀ (l : List α) (y : α), firstMaxBy key l = some y → ∀ z ∈ l, key z ≤ key y := by
  intro l
  induction l with
  | nil => intro y h; cases h
  | cons x xs ih =>
    intro y h
    simp only [firstMaxBy] at h
    cases hr : firstMaxBy key xs with
    | none =>
      have hxs : xs = [] := (firstMaxBy_eq_none_iff key xs).mp hr
      rw [hr] at h
      have hxy : x = y := Option.some.inj h
      subst hxs
      intro z hz
      simp at hz
      rw [hz, hxy]
    | some w =>
      rw [hr] at h
      have h' : (if key x < key w then some w else some x) = some y := h
      by_cases hk : key x < key w
      · rw [if_pos hk] at h'
        have hwy : w = y := Option.some.inj h'
        intro z hz
        rcases List.mem_cons.mp hz with he | hz'
        · rw [he, ← hwy]
          exact Nat.le_of_lt hk
        · exact ih y (hwy ▸ hr) z hz'
      · rw [if_neg hk] at h'
        have hxy : x = y := Option.some.inj h'
        intro z hz
        rcases List.mem_cons.mp hz with he | hz'
        · rw [he, ← hxy]
        · rw [← hxy]
          exact Nat.le_trans (ih w hr z hz') (Nat.le_of_not_lt hk)

theorem firstMaxBy_split {α : Type _} (key : α → Nat) :
    ∀ (l : List α) (y : α), firstMaxBy key l = some y →
      ∃ l1 l2, l = l1 ++ y :: l2 ∧ ∀ z ∈ l1, key z < key y := by
  intro l
  induction l with
  | nil => intro y h; cases h
  | cons x xs ih =>
    intro y h
    simp only [firstMaxBy] at h
    cases hr : firstMaxBy key xs with
    | none =>
      rw [hr] at h
      have hxy : x = y := Option.some.inj h
      exact ⟨[], xs, by simp [hxy], by simp⟩
    | some w =>
      rw [hr] at h
      have h' : (if key x < key w then some w else some x) = some y := h
      by_cases hk : key x < key w
      · rw [if_pos hk] at h'
        have hwy : w = y := Option.some.inj h'
        obtain ⟨l1, l2, he, hlt⟩ := ih y (hwy ▸ hr)
        refine ⟨x :: l1, l2, by simp [he], ?_⟩
        intro z hz
        rcases List.mem_cons.mp hz with he' | hz'
        · rw [he', ← hwy]
          exact hk
        · exact hlt z hz'
      · rw [if_neg hk] at h'
        have hxy : x = y := Option.some.inj h'
        exact ⟨[], xs, by simp [hxy], by simp⟩

namespace DriveDuplicates

theorem dupInfos_sums (dups : List (String × List DriveFile)) :
    ((dupInfos dups).map (fun g => g.num_copies)).sum
        = ((dups.filter (fun p => (firstMember p.2).size ≠ 0)).map
            (fun p => p.2.length)).sum ∧
    ((dupInfos dups).map (fun g => g.wasted_bytes)).sum
        = ((dups.filter (fun p => (firstMember p.2).size ≠ 0)).map
            (fun p => (firstMember p.2).size * (p.2.length - 1))).sum := by
  induction dups with
  | nil => simp [dupInfos]
  | cons p rest ih =>
    obtain ⟨ih1, ih2⟩ := ih
    by_cases h0 : (firstMember p.2).size = 0
    · have e1 : dupInfos (p :: rest) = dupInfos rest := by
        simp only [dupInfos, List.filterMap_cons, if_pos h0]
      have e2 : (p :: rest).filter (fun q => (firstMember q.2).size ≠ 0)
          = rest.filter (fun q => (firstMember q.2).size ≠ 0) := by
        simp [List.filter_cons, h0]
      rw [e1, e2]
      exact ⟨ih1, ih2⟩
    · have e1 : dupInfos (p :: rest) = dupGroupInfo p.1 p.2 :: dupInfos rest := by
        simp only [dupInfos, List.filterMap_cons, if_neg h0]
      have e2 : (p :: rest).filter (fun q => (firstMember q.2).size ≠ 0)
          = p :: rest.filter (fun q => (firstMember q.2).size ≠ 0) := by
        simp [List.filter_cons, h0]
      rw [e1, e2]
      constructor
      · simp [dupGroupInfo, ih1]
      · simp [dupGroupInfo, ih2]

end DriveDuplicates

namespace SimilarImages

theorem simInfo_mem (sgroups : List (String × List DriveFile)) (gid : String)
    (G : List DriveFile) (hmem : (gid, G) ∈ sgroups) :
    simGroupInfo sgroups gid G ∈ (calculate_wasted_space sgroups).similar_groups := by
  show _ ∈ sortDesc _ (simInfos sgroups)
  rw [mem_sortDesc]
  exact List.mem_map.mpr ⟨(gid, G), hmem, rfl⟩

theorem keeper_spec (G : List DriveFile) (hne : G ≠ []) :
    ∃ y, firstMaxBy (fun f => f.size) G = some y ∧
      firstMember (sortDesc (fun f => f.size) G) = y := by
  cases hfm : firstMaxBy (fun f => f.size) G with
  | none => exact absurd ((firstMaxBy_eq_none_iff _ G).mp hfm) hne
  | some y =>
    refine ⟨y, rfl, ?_⟩
    have hh : (sortDesc (fun f => f.size) G).head? = some y := by
      rw [sortDesc_head?_eq_firstMaxBy, hfm]
    cases hs : sortDesc (fun f => f.size) G with
    | nil => rw [hs] at hh; cases hh
    | cons a as =>
      rw [hs] at hh
      simp at hh
      simp [firstMember, hh]

end SimilarImages

/-- C4: for an exact-duplicate group of N members of shared size S the
computed wasted bytes are (N-1)*S; for a similar-image group they are the
sum of all members' sizes minus the size of the survivor, where the survivor
is a member of maximal size. -/
theorem c4_wasted_space_arithmetic :
    (∀ (dups : List (String × List DriveFile)) (h : String) (G : List DriveFile)
        (S : Nat), (h, G) ∈ dups → G ≠ [] → (∀ f ∈ G, f.size = S) → S ≠ 0 →
      ∃ e ∈ (DriveDuplicates.calculate_wasted_space dups).duplicate_groups,
        e.md5 = h ∧ e.files = G ∧ e.num_copies = G.length ∧
        e.wasted_bytes = (G.length - 1) * S) ∧
    (∀ (sgroups : List (String × List DriveFile)) (gid : String)
        (G : List DriveFile), (gid, G) ∈ sgroups → G ≠ [] →
      ∃ e ∈ (SimilarImages.calculate_wasted_space sgroups).similar_groups,
        e.num_similar = G.length ∧ e.keeper ∈ G ∧
        (∀ f ∈ G, f.size ≤ e.keeper.size) ∧
        e.wasted_bytes = (G.map (fun f => f.size)).sum - e.keeper.size) := by
  constructor
  · intro dups h G S hmem hne hsz hS0
    have hhead : (firstMember G).size = S := by
      cases G with
      | nil => exact absurd rfl hne
      | cons g gs => exact hsz g (List.mem_cons_self ..)
    refine ⟨DriveDuplicates.dupGroupInfo h G, ?_, rfl, rfl, rfl, ?_⟩
    · show _ ∈ sortDesc _ (DriveDuplicates.dupInfos dups)
      rw [mem_sortDesc]
      apply List.mem_filterMap.mpr
      refine ⟨(h, G), hmem, ?_⟩
      rw [if_neg]
      rw [hhead]
      exact hS0
    · show (firstMember G).size * (G.length - 1) = (G.length - 1) * S
      rw [hhead, Nat.mul_comm]
  · intro sgroups gid G hmem hne
    obtain ⟨y, hfm, hhd⟩ := SimilarImages.keeper_spec G hne
    have hk : (SimilarImages.simGroupInfo sgroups gid G).keeper = y := hhd
    refine ⟨SimilarImages.simGroupInfo sgroups gid G,
      SimilarImages.simInfo_mem sgroups gid G hmem, rfl, ?_, ?_, ?_⟩
    · rw [hk]
      exact firstMaxBy_mem _ G y hfm
    · intro f hf
      rw [hk]
      exact le_of_firstMaxBy _ G y hfm f hf
    · rw [hk]
      show (G.map (fun f => f.size)).sum - _ = _
      rw [hhd]

/-- Witness for C4 at concrete inputs: an exact group of two files of size
5 wastes 5 bytes; a similar group of sizes [3, 7] keeps the 7-byte file and
wastes 3 bytes. -/
theorem c4_wasted_space_arithmetic_witness :
    (∃ e ∈ (DriveDuplicates.calculate_wasted_space
        [("h", [⟨"a", "n", 5, some "h"⟩, ⟨"b", "n", 5, some "h"⟩])]).duplicate_groups,
      e.md5 = "h" ∧
      e.files = [⟨"a", "n", 5, some "h"⟩, ⟨"b", "n", 5, some "h"⟩] ∧
      e.num_copies = 2 ∧ e.wasted_bytes = (2 - 1) * 5) ∧
    (∃ e ∈ (SimilarImages.calculate_wasted_space
        [("a", [⟨"a", "n", 3, none⟩, ⟨"b", "n", 7, none⟩])]).similar_groups,
      e.num_similar = 2 ∧
      e.keeper ∈ [(⟨"a", "n", 3, none⟩ : DriveFile), ⟨"b", "n", 7, none⟩] ∧
      (∀ f ∈ [(⟨"a", "n", 3, none⟩ : DriveFile), ⟨"b", "n", 7, none⟩],
        f.size ≤ e.keeper.size) ∧
      e.wasted_bytes =
        ([(⟨"a", "n", 3, none⟩ : DriveFile), ⟨"b", "n", 7, none⟩].map
          (fun f => f.size)).sum - e.keeper.size) := by
  constructor
  · exact c4_wasted_space_arithmetic.1
      [("h", [⟨"a", "n", 5, some "h"⟩, ⟨"b", "n", 5, some "h"⟩])] "h"
      [⟨"a", "n", 5, some "h"⟩, ⟨"b", "n", 5, some "h"⟩] 5
      (by decide) (by decide) (by decide) (by decide)
  · exact c4_wasted_space_arithmetic.2
      [("a", [⟨"a", "n", 3, none⟩, ⟨"b", "n", 7, none⟩])] "a"
      [⟨"a", "n", 3, none⟩, ⟨"b", "n", 7, none⟩]
      (by decide) (by decide)

/-- C7 counterexample: for one group of two files of unknown (0) size, the
reported `total_duplicate_files` is 0, not the total member count 2 claimed
— the `continue` for zero-size groups happens before the member counter is
incremented, so members of zero-size groups are NOT counted. -/
theorem c7_counterexample :
    (DriveDuplicates.calculate_wasted_space
        [("h", [⟨"a", "n", 0, some "h"⟩, ⟨"b", "n", 0, some "h"⟩])]).total_duplicate_files
      ≠ ([("h", [(⟨"a", "n", 0, some "h"⟩ : DriveFile), ⟨"b", "n", 0, some "h"⟩])].map
          (fun p => p.2.length)).sum := by
  decide

/-- C7 (amended): zero-size groups contribute nothing to the wasted-byte
total and are still counted in the GROUP count (`len(duplicates)`), but
their members are NOT included in the duplicate-file count: both counters
range only over the groups whose (first member's) size is nonzero. -/
theorem c7_zero_size_group_accounting (dups : List (String × List DriveFile)) :
    (DriveDuplicates.calculate_wasted_space dups).total_duplicate_groups
        = dups.length ∧
    (DriveDuplicates.calculate_wasted_space dups).total_wasted_bytes
        = ((dups.filter (fun p => (firstMember p.2).size ≠ 0)).map
            (fun p => (firstMember p.2).size * (p.2.length - 1))).sum ∧
    (DriveDuplicates.calculate_wasted_space dups).total_duplicate_files
        = ((dups.filter (fun p => (firstMember p.2).size ≠ 0)).map
            (fun p => p.2.length)).sum :=
  ⟨rfl, (DriveDuplicates.dupInfos_sums dups).2, (DriveDuplicates.dupInfos_sums dups).1⟩

/-- C8: the survivor of a similar-image group is the member with the largest
size, ties broken by first-seen order (the keeper is the first member
attaining the maximal size), it heads the sorted `files` list handed to the
dump-and-delete executor (which keeps index 0 by default), and the selection
is a pure function of the group contents. -/
theorem c8_survivor_policy (sgroups : List (String × List DriveFile))
    (gid : String) (G : List DriveFile)
    (hmem : (gid, G) ∈ sgroups) (hne : G ≠ []) :
    ∃ e ∈ (SimilarImages.calculate_wasted_space sgroups).similar_groups,
      e.files = sortDesc (fun f => f.size) G ∧
      e.files.head? = some e.keeper ∧
      e.keeper ∈ G ∧
      (∀ f ∈ G, f.size ≤ e.keeper.size) ∧
      ∃ l1 l2, G = l1 ++ e.keeper :: l2 ∧ ∀ f ∈ l1, f.size < e.keeper.size := by
  obtain ⟨y, hfm, hhd⟩ := SimilarImages.keeper_spec G hne
  have hk : (SimilarImages.simGroupInfo sgroups gid G).keeper = y := hhd
  refine ⟨SimilarImages.simGroupInfo sgroups gid G,
    SimilarImages.simInfo_mem sgroups gid G hmem, rfl, ?_, ?_, ?_, ?_⟩
  · show (sortDesc (fun f => f.size) G).head? = _
    rw [sortDesc_head?_eq_firstMaxBy, hfm, hk]
  · rw [hk]
    exact firstMaxBy_mem _ G y hfm
  · intro f hf
    rw [hk]
    exact le_of_firstMaxBy _ G y hfm f hf
  · rw [hk]
    exact firstMaxBy_split _ G y hfm

/-- Witness for C8 at a concrete input with a size tie: sizes [7, 7, 3] keep
the FIRST 7-byte member. -/
theorem c8_survivor_policy_witness :
    ∃ e ∈ (SimilarImages.calculate_wasted_space
        [("a", [⟨"a", "n", 7, none⟩, ⟨"b", "n", 7, none⟩, ⟨"c", "n", 3, none⟩])]).similar_groups,
      e.files = sortDesc (fun f => f.size)
        [⟨"a", "n", 7, none⟩, ⟨"b", "n", 7, none⟩, ⟨"c", "n", 3, none⟩] ∧
      e.files.head? = some e.keeper ∧
      e.keeper ∈ [(⟨"a", "n", 7, none⟩ : DriveFile), ⟨"b", "n", 7, none⟩, ⟨"c", "n", 3, none⟩] ∧
      (∀ f ∈ [(⟨"a", "n", 7, none⟩ : DriveFile), ⟨"b", "n", 7, none⟩, ⟨"c", "n", 3, none⟩],
        f.size ≤ e.keeper.size) ∧
      ∃ l1 l2,
        [(⟨"a", "n", 7, none⟩ : DriveFile), ⟨"b", "n", 7, none⟩, ⟨"c", "n", 3, none⟩]
          = l1 ++ e.keeper :: l2 ∧ ∀ f ∈ l1, f.size < e.keeper.size :=
  c8_survivor_policy
    [("a", [⟨"a", "n", 7, none⟩, ⟨"b", "n", 7, none⟩, ⟨"c", "n", 3, none⟩])] "a"
    [⟨"a", "n", 7, none⟩, ⟨"b", "n", 7, none⟩, ⟨"c", "n", 3, none⟩]
    (by decide) (by decide)

namespace SimilarImages

theorem outerLoop_two_le (lookup : String → DriveFile)
    (hashOf : String → List Bool) (thr : ℚ) :
    ∀ (ids processed : List String) (gid : String) (G : List DriveFile),
      (gid, G) ∈ outerLoop lookup hashOf thr ids processed → 2 ≤ G.length := by
  intro ids
  induction ids with
  | nil => intro processed gid G h; cases h
  | cons id1 rest ih =>
    intro processed gid G h
    simp only [outerLoop] at h
    by_cases hp : id1 ∈ processed
    · rw [if_pos hp] at h
      exact ih _ _ _ h
    · rw [if_neg hp] at h
      by_cases hg : 1 <
          (lookup id1 ::
            (innerScan hashOf thr (hashOf id1) rest (id1 :: processed)).1.map lookup).length
      · rw [if_pos hg] at h
        rcases List.mem_cons.mp h with he | h'
        · have hG : G =
              lookup id1 ::
                (innerScan hashOf thr (hashOf id1) rest (id1 :: processed)).1.map lookup :=
            congrArg Prod.snd he
          rw [hG]
          exact hg
        · exact ih _ _ _ h'
      · rw [if_neg hg] at h
        exact ih _ _ _ h

/-- A two-element run of the clusterer with distinct ids and a similar pair:
one group holding both files. -/
theorem cluster_pair (fa fb : DriveFile) (ha hb : List Bool) (thr : ℚ)
    (hne : fa.id ≠ fb.id) (hs : thr ≤ similarity ha hb) :
    find_similar_images [fa, fb] [(fa.id, ha), (fb.id, hb)] thr
      = [(fa.id, [fa, fb])] := by
  have eAA : (fa.id == fa.id) = true := beq_self_eq_true _
  have eAB : (fa.id == fb.id) = false := beq_eq_false_iff_ne.mpr hne
  have eBB : (fb.id == fb.id) = true := beq_self_eq_true _
  have nBA : ¬fb.id = fa.id := fun e => hne e.symm
  simp [find_similar_images, outerLoop, innerScan, eAA, eAB, eBB, nBA, hs]

end SimilarImages

/-- C3: with fingerprints A, B, C fed in order where A~B and B~C are within
the threshold but A~C is not, the greedy single-pass clusterer emits exactly
the one group {A, B}; C matches no anchor it is compared against and its
singleton group is discarded.  Clustering is greedy against the anchor only,
not transitive. -/
theorem c3_greedy_not_transitive (fA fB fC : DriveFile) (hA hB hC : List Bool)
    (thr : ℚ)
    (dAB : fA.id ≠ fB.id) (dAC : fA.id ≠ fC.id) (dBC : fB.id ≠ fC.id)
    (sAB : thr ≤ SimilarImages.similarity hA hB)
    (sBC : thr ≤ SimilarImages.similarity hB hC)
    (sAC : ¬thr ≤ SimilarImages.similarity hA hC) :
    SimilarImages.find_similar_images [fA, fB, fC]
        [(fA.id, hA), (fB.id, hB), (fC.id, hC)] thr
      = [(fA.id, [fA, fB])] := by
  have eAA : (fA.id == fA.id) = true := beq_self_eq_true _
  have eAB : (fA.id == fB.id) = false := beq_eq_false_iff_ne.mpr dAB
  have eAC : (fA.id == fC.id) = false := beq_eq_false_iff_ne.mpr dAC
  have eBB : (fB.id == fB.id) = true := beq_self_eq_true _
  have eBC : (fB.id == fC.id) = false := beq_eq_false_iff_ne.mpr dBC
  have eCC : (fC.id == fC.id) = true := beq_self_eq_true _
  have nBA : ¬fB.id = fA.id := fun e => dAB e.symm
  have nCA : ¬fC.id = fA.id := fun e => dAC e.symm
  have nCB : ¬fC.id = fB.id := fun e => dBC e.symm
  simp [SimilarImages.find_similar_images, SimilarImages.outerLoop,
    SimilarImages.innerScan, eAA, eAB, eAC, eBB, eBC, eCC, nBA, nCA, nCB,
    sAB, sAC]

/-- Witness for C3 at concrete fingerprints: 8-bit vectors with pairwise
Hamming distances d(A,B)=4, d(B,C)=4, d(A,C)=8 under threshold 0.9
(distance budget 6.4 of 64 bits). -/
theorem c3_greedy_not_transitive_witness :
    SimilarImages.find_similar_images
        [⟨"A", "a", 1, none⟩, ⟨"B", "b", 2, none⟩, ⟨"C", "c", 3, none⟩]
        [("A", [false, false, false, false, false, false, false, false]),
         ("B", [true, true, true, true, false, false, false, false]),
         ("C", [true, true, true, true, true, true, true, true])] (9 / 10)
      = [("A", [⟨"A", "a", 1, none⟩, ⟨"B", "b", 2, none⟩])] := by
  have h1 : SimilarImages.hamming
      [false, false, false, false, false, false, false, false]
      [true, true, true, true, false, false, false, false] = 4 := rfl
  have h2 : SimilarImages.hamming
      [true, true, true, true, false, false, false, false]
      [true, true, true, true, true, true, true, true] = 4 := rfl
  have h3 : SimilarImages.hamming
      [false, false, false, false, false, false, false, false]
      [true, true, true, true, true, true, true, true] = 8 := rfl
  exact c3_greedy_not_transitive _ _ _ _ _ _ _ (by decide) (by decide) (by decide)
    (by rw [SimilarImages.similarity, h1]; norm_num)
    (by rw [SimilarImages.similarity, h2]; norm_num)
    (by rw [SimilarImages.similarity, h3]; norm_num)

/-- C9: every materialized group, exact-duplicate or similar-image, has at
least two members; singleton buckets and match-less anchors are discarded
and never emitted. -/
theorem c9_no_singleton_groups :
    (∀ (files : List DriveFile) (h : String) (G : List DriveFile),
      (h, G) ∈ DriveDuplicates.find_duplicates files → 2 ≤ G.length) ∧
    (∀ (files : List DriveFile) (hashes : List (String × List Bool)) (thr : ℚ)
        (gid : String) (G : List DriveFile),
      (gid, G) ∈ SimilarImages.find_similar_images files hashes thr →
      2 ≤ G.length) := by
  constructor
  · intro files h G hmem
    have := ((DriveDuplicates.mem_find_duplicates_iff files h G).mp hmem).2
    omega
  · intro files hashes thr gid G hmem
    exact SimilarImages.outerLoop_two_le _ _ _ _ _ _ _ hmem

/-- Witness for C9 at concrete inputs: a pair of identical-hash files and a
pair of identical-fingerprint images each form a 2-member group. -/
theorem c9_no_singleton_groups_witness :
    2 ≤ ([(⟨"a", "n", 3, some "h"⟩ : DriveFile), ⟨"b", "n", 3, some "h"⟩] : List DriveFile).length ∧
    2 ≤ ([(⟨"a", "n", 3, none⟩ : DriveFile), ⟨"b", "n", 3, none⟩] : List DriveFile).length := by
  constructor
  · exact c9_no_singleton_groups.1
      [⟨"a", "n", 3, some "h"⟩, ⟨"b", "n", 3, some "h"⟩] "h"
      [⟨"a", "n", 3, some "h"⟩, ⟨"b", "n", 3, some "h"⟩] (by decide)
  · refine c9_no_singleton_groups.2
      [⟨"a", "n", 3, none⟩, ⟨"b", "n", 3, none⟩]
      [("a", [true, false]), ("b", [true, false])] (9 / 10) "a"
      [⟨"a", "n", 3, none⟩, ⟨"b", "n", 3, none⟩] ?_
    have he := SimilarImages.cluster_pair ⟨"a", "n", 3, none⟩ ⟨"b", "n", 3, none⟩
      [true, false] [true, false] (9 / 10) (by decide)
      (by rw [SimilarImages.similarity]
          norm_num [SimilarImages.hamming])
    rw [he]
    exact List.mem_singleton.mpr rfl

theorem dumpLoop_safe (download : String → Bool) (del : String → DeleteOutcome)
    (keep : Nat) :
    ∀ (files : List DriveFile) (i : Nat) (dl : List String),
      safeTraceAux (dumpLoop download del keep i files).trace dl = true := by
  intro files
  induction files with
  | nil => intro i dl; rfl
  | cons f fs ih =>
    intro i dl
    simp only [dumpLoop]
    by_cases hk : i = keep
    · rw [if_pos hk]
      exact ih (i + 1) dl
    · rw [if_neg hk]
      by_cases hd : download f.id
      · rw [if_pos hd]
        by_cases hdel : delete_file (del f.id)
        · rw [if_pos hdel]
          simp [safeTraceAux, ih]
        · rw [if_neg hdel]
          simp [safeTraceAux, ih]
      · rw [if_neg hd]
        simp [safeTraceAux, ih]

theorem dumpLoop_downloaded_sub (download : String → Bool)
    (del : String → DeleteOutcome) (keep : Nat) :
    ∀ (files : List DriveFile) (i : Nat) (d : DlRec),
      d ∈ (dumpLoop download del keep i files).downloaded →
      ∃ g ∈ files, g.id = d.id := by
  intro files
  induction files with
  | nil => intro i d h; simp [dumpLoop] at h
  | cons f fs ih =>
    intro i d h
    simp only [dumpLoop] at h
    by_cases hk : i = keep
    · rw [if_pos hk] at h
      obtain ⟨g, hg, he⟩ := ih _ _ h
      exact ⟨g, List.mem_cons_of_mem _ hg, he⟩
    · rw [if_neg hk] at h
      by_cases hd : download f.id
      · rw [if_pos hd] at h
        by_cases hdel : delete_file (del f.id)
        · rw [if_pos hdel] at h
          rcases List.mem_cons.mp h with he | h'
          · exact ⟨f, List.mem_cons_self .., by rw [he]⟩
          · obtain ⟨g, hg, hge⟩ := ih _ _ h'
            exact ⟨g, List.mem_cons_of_mem _ hg, hge⟩
        · rw [if_neg hdel] at h
          rcases List.mem_cons.mp h with he | h'
          · exact ⟨f, List.mem_cons_self .., by rw [he]⟩
          · obtain ⟨g, hg, hge⟩ := ih _ _ h'
            exact ⟨g, List.mem_cons_of_mem _ hg, hge⟩
      · rw [if_neg hd] at h
        obtain ⟨g, hg, hge⟩ := ih _ _ h
        exact ⟨g, List.mem_cons_of_mem _ hg, hge⟩

theorem dumpLoop_deleted_sub (download : String → Bool)
    (del : String → DeleteOutcome) (keep : Nat) :
    ∀ (files : List DriveFile) (i : Nat) (id : String),
      id ∈ (dumpLoop download del keep i files).deleted_from_drive →
      ∃ g ∈ files, g.id = id ∧ delete_file (del g.id) = true := by
  intro files
  induction files with
  | nil => intro i id h; simp [dumpLoop] at h
  | cons f fs ih =>
    intro i id h
    simp only [dumpLoop] at h
    by_cases hk : i = keep
    · rw [if_pos hk] at h
      obtain ⟨g, hg, he⟩ := ih _ _ h
      exact ⟨g, List.mem_cons_of_mem _ hg, he⟩
    · rw [if_neg hk] at h
      by_cases hd : download f.id
      · rw [if_pos hd] at h
        by_cases hdel : delete_file (del f.id)
        · rw [if_pos hdel] at h
          rcases List.mem_cons.mp h with he | h'
          · exact ⟨f, List.mem_cons_self .., he.symm, hdel⟩
          · obtain ⟨g, hg, hge⟩ := ih _ _ h'
            exact ⟨g, List.mem_cons_of_mem _ hg, hge⟩
        · rw [if_neg hdel] at h
          obtain ⟨g, hg, hge⟩ := ih _ _ h
          exact ⟨g, List.mem_cons_of_mem _ hg, hge⟩
      · rw [if_neg hd] at h
        obtain ⟨g, hg, hge⟩ := ih _ _ h
        exact ⟨g, List.mem_cons_of_mem _ hg, hge⟩

theorem dumpLoop_mem_of_get? (download : String → Bool)
    (del : String → DeleteOutcome) (keep : Nat) :
    ∀ (files : List DriveFile) (j i : Nat) (f : DriveFile),
      files.get? i = some f → j + i ≠ keep → download f.id = true →
      delete_file (del f.id) = false →
      (⟨f.id, f.name, "no_permission"⟩ : SkipRec)
          ∈ (dumpLoop download del keep j files).skipped_no_permission ∧
      (⟨f.id, f.name, f.size⟩ : DlRec)
          ∈ (dumpLoop download del keep j files).downloaded := by
  intro files
  induction files with
  | nil => intro j i f hget; simp at hget
  | cons g fs ih =>
    intro j i f hget hne hd hdel
    cases i with
    | zero =>
      have hgf : g = f := by simpa using hget
      subst hgf
      simp only [dumpLoop]
      rw [if_neg (by simpa using hne), if_pos hd, if_neg (by simp [hdel])]
      exact ⟨List.mem_cons_self .., List.mem_cons_self ..⟩
    | succ i' =>
      have hget' : fs.get? i' = some f := by simpa using hget
      have hne' : (j + 1) + i' ≠ keep := by omega
      have hrec := ih (j + 1) i' f hget' hne' hd hdel
      simp only [dumpLoop]
      by_cases hk : j = keep
      · rw [if_pos hk]
        exact hrec
      · rw [if_neg hk]
        by_cases hd2 : download g.id
        · rw [if_pos hd2]
          by_cases hdel2 : delete_file (del g.id)
          · rw [if_pos hdel2]
            exact ⟨hrec.1, List.mem_cons_of_mem _ hrec.2⟩
          · rw [if_neg hdel2]
            exact ⟨List.mem_cons_of_mem _ hrec.1, List.mem_cons_of_mem _ hrec.2⟩
        · rw [if_neg hd2]
          exact hrec

theorem dumpLoop_space_freed (download : String → Bool)
    (del : String → DeleteOutcome) (keep : Nat) :
    ∀ (files : List DriveFile) (i : Nat),
      (files.map (fun f => f.id)).Nodup →
      space_freed_bytes (dumpLoop download del keep i files)
        = specFreedBytesFrom download del keep i files := by
  intro files
  induction files with
  | nil => intro i _; rfl
  | cons f fs ih =>
    intro i hnd
    have hnd' : (fs.map (fun f => f.id)).Nodup ∧ f.id ∉ fs.map (fun f => f.id) := by
      simp only [List.map_cons, List.nodup_cons] at hnd
      exact ⟨hnd.2, hnd.1⟩
    have hid_dl : ∀ d ∈ (dumpLoop download del keep (i + 1) fs).downloaded,
        d.id ≠ f.id := by
      intro d hd he
      obtain ⟨g, hg, hge⟩ := dumpLoop_downloaded_sub download del keep fs _ _ hd
      exact hnd'.2 (List.mem_map.mpr ⟨g, hg, by rw [hge, he]⟩)
    have hid_del : f.id ∉ (dumpLoop download del keep (i + 1) fs).deleted_from_drive := by
      intro hmem
      obtain ⟨g, hg, hge, _⟩ := dumpLoop_deleted_sub download del keep fs _ _ hmem
      exact hnd'.2 (List.mem_map.mpr ⟨g, hg, hge⟩)
    simp only [dumpLoop, specFreedBytesFrom]
    by_cases hk : i = keep
    · rw [if_pos hk]
      have ho : memberOutcome download del keep i f = DisposalOutcome.kept := by
        simp [memberOutcome, hk]
      rw [ho]
      simpa using ih (i + 1) hnd'.1
    · rw [if_neg hk]
      by_cases hd : download f.id
      · rw [if_pos hd]
        by_cases hdel : delete_file (del f.id)
        · rw [if_pos hdel]
          have ho : memberOutcome download del keep i f
              = DisposalOutcome.downloadedAndDeleted := by
            simp [memberOutcome, hk, hd, hdel]
          rw [ho]
          simp only [space_freed_bytes]
          rw [List.filter_cons]
          have hc : (decide ((⟨f.id, f.name, f.size⟩ : DlRec).id
              ∈ f.id :: (dumpLoop download del keep (i + 1) fs).deleted_from_drive)) = true := by
            simp
          rw [if_pos (by simpa using hc)]
          have hfc : List.filter
              (fun d => decide (d.id
                ∈ f.id :: (dumpLoop download del keep (i + 1) fs).deleted_from_drive))
              (dumpLoop download del keep (i + 1) fs).downloaded
              = List.filter
                (fun d => decide (d.id
                  ∈ (dumpLoop download del keep (i + 1) fs).deleted_from_drive))
                (dumpLoop download del keep (i + 1) fs).downloaded := by
            apply List.filter_congr
            intro d hdm
            apply decide_eq_decide.mpr
            constructor
            · intro hmem
              rcases List.mem_cons.mp hmem with he | hmem'
              · exact absurd he (hid_dl d hdm)
              · exact hmem'
            · exact fun hmem => List.mem_cons_of_mem _ hmem
          simp only [List.map_cons, List.sum_cons, hfc]
          have := ih (i + 1) hnd'.1
          simp only [space_freed_bytes] at this
          rw [this]
          simp
        · rw [if_neg hdel]
          have ho : memberOutcome download del keep i f
              = DisposalOutcome.downloadedPermissionDenied := by
            simp [memberOutcome, hk, hd, hdel]
          rw [ho]
          simp only [space_freed_bytes]
          rw [List.filter_cons]
          rw [if_neg (by simpa using hid_del)]
          have := ih (i + 1) hnd'.1
          simp only [space_freed_bytes] at this
          rw [this]
          simp
      · rw [if_neg hd]
        have ho : memberOutcome download del keep i f
            = DisposalOutcome.downloadFailed := by
          simp [memberOutcome, hk, hd]
        rw [ho]
        have := ih (i + 1) hnd'.1
        simp only [space_freed_bytes] at this ⊢
        rw [this]
        simp

/-- C1: the two Drive executors do satisfy download-before-delete — in every
trace each `deleteAttempt` of an object is preceded by a successful download
of that same object, for all oracles, groups and survivor indices.  The
Gmail executor does NOT: at the concrete input of an email with a single
attachment whose download fails (trash succeeding), the trash of the email
is still attempted — `deleted = self.delete_email(msg_id)` runs after the
download loop unconditionally — so the claimed gate is violated there. -/
theorem c1_download_before_delete_gate :
    (∀ (download : String → Bool) (del : String → DeleteOutcome)
        (files : List DriveFile) (keep : Nat),
      safeTraceAux (dump_and_delete_duplicates download del files keep).trace []
        = true) ∧
    (∀ (download : String → Bool) (del : String → DeleteOutcome)
        (files : List DriveFile) (keep : Nat),
      safeTraceAux (dump_and_delete_similar download del files keep).trace []
        = true) ∧
    ((dump_and_delete_emails (fun _ _ => false) (fun _ => true)
        ⟨"m1", "s", [⟨"a1", "big.mov", 12345⟩], 12345⟩).failed = ["big.mov"] ∧
      (dump_and_delete_emails (fun _ _ => false) (fun _ => true)
        ⟨"m1", "s", [⟨"a1", "big.mov", 12345⟩], 12345⟩).downloaded = [] ∧
      (dump_and_delete_emails (fun _ _ => false) (fun _ => true)
        ⟨"m1", "s", [⟨"a1", "big.mov", 12345⟩], 12345⟩).deleted = true ∧
      GEv.trashAttempt "m1" ∈ (dump_and_delete_emails (fun _ _ => false) (fun _ => true)
        ⟨"m1", "s", [⟨"a1", "big.mov", 12345⟩], 12345⟩).trace ∧
      GEv.attDownloadOk "m1" "a1" ∉ (dump_and_delete_emails (fun _ _ => false) (fun _ => true)
        ⟨"m1", "s", [⟨"a1", "big.mov", 12345⟩], 12345⟩).trace) := by
  refine ⟨fun download del files keep => dumpLoop_safe download del keep files 0 [],
    fun download del files keep => dumpLoop_safe download del keep files 0 [],
    by decide, by decide, rfl, by decide, by decide⟩

/-- C10: `delete_file` collapses every exception to `False` (true only on
success), and every delete failure of a downloaded non-survivor — whatever
the cause — lands in `skipped_no_permission` with reason `'no_permission'`,
in both Drive executors. -/
theorem c10_delete_failures_all_no_permission :
    (∀ o : DeleteOutcome, delete_file o = true ↔ o = DeleteOutcome.success) ∧
    (∀ (download : String → Bool) (del : String → DeleteOutcome)
        (files : List DriveFile) (keep i : Nat) (f : DriveFile),
      files.get? i = some f → i ≠ keep → download f.id = true →
      del f.id ≠ DeleteOutcome.success →
      (⟨f.id, f.name, "no_permission"⟩ : SkipRec)
          ∈ (dump_and_delete_duplicates download del files keep).skipped_no_permission ∧
      (⟨f.id, f.name, "no_permission"⟩ : SkipRec)
          ∈ (dump_and_delete_similar download del files keep).skipped_no_permission) := by
  constructor
  · intro o
    cases o <;> simp [delete_file]
  · intro download del files keep i f hget hne hd hfail
    have hdel : delete_file (del f.id) = false := by
      cases hdf : del f.id with
      | success => exact absurd hdf hfail
      | permissionDenied => rfl
      | otherFailure => rfl
    have h1 := dumpLoop_mem_of_get? download del keep files 0 i f hget
      (by simpa using hne) hd hdel
    exact ⟨h1.1, h1.1⟩

/-- Witness for C10 at a concrete input: the second file of a pair downloads
but its delete fails with a non-permission failure; it is still tallied as
`'no_permission'`, in both executors. -/
theorem c10_delete_failures_witness :
    (⟨"b", "n2", "no_permission"⟩ : SkipRec)
        ∈ (dump_and_delete_duplicates (fun _ => true)
            (fun _ => DeleteOutcome.otherFailure)
            [⟨"a", "n1", 3, some "h"⟩, ⟨"b", "n2", 3, some "h"⟩] 0).skipped_no_permission ∧
    (⟨"b", "n2", "no_permission"⟩ : SkipRec)
        ∈ (dump_and_delete_similar (fun _ => true)
            (fun _ => DeleteOutcome.otherFailure)
            [⟨"a", "n1", 3, some "h"⟩, ⟨"b", "n2", 3, some "h"⟩] 0).skipped_no_permission :=
  c10_delete_failures_all_no_permission.2 (fun _ => true)
    (fun _ => DeleteOutcome.otherFailure)
    [⟨"a", "n1", 3, some "h"⟩, ⟨"b", "n2", 3, some "h"⟩] 0 1 ⟨"b", "n2", 3, some "h"⟩
    rfl (by decide) rfl (by decide)

/-- C5: a downloaded non-survivor whose delete returns PermissionDenied is
tallied under `skipped_no_permission`, its download record (local copy) is
retained, its id never enters `deleted_from_drive` (remote copy untouched),
its disposal outcome is DownloadedPermissionDenied, and `space_freed_bytes`
equals the sum over DownloadedAndDeleted members only — so its size is not
counted.  Holds for both Drive executors. -/
theorem c5_permission_denied_accounting
    (download : String → Bool) (del : String → DeleteOutcome)
    (files : List DriveFile) (keep i : Nat) (f : DriveFile)
    (hget : files.get? i = some f) (hne : i ≠ keep)
    (hd : download f.id = true)
    (hpd : del f.id = DeleteOutcome.permissionDenied)
    (hnd : (files.map (fun f => f.id)).Nodup) :
    ((⟨f.id, f.name, "no_permission"⟩ : SkipRec)
        ∈ (dump_and_delete_duplicates download del files keep).skipped_no_permission ∧
      (⟨f.id, f.name, f.size⟩ : DlRec)
        ∈ (dump_and_delete_duplicates download del files keep).downloaded ∧
      f.id ∉ (dump_and_delete_duplicates download del files keep).deleted_from_drive ∧
      space_freed_bytes (dump_and_delete_duplicates download del files keep)
        = specFreedBytes download del keep files ∧
      memberOutcome download del keep i f
        = DisposalOutcome.downloadedPermissionDenied) ∧
    ((⟨f.id, f.name, "no_permission"⟩ : SkipRec)
        ∈ (dump_and_delete_similar download del files keep).skipped_no_permission ∧
      (⟨f.id, f.name, f.size⟩ : DlRec)
        ∈ (dump_and_delete_similar download del files keep).downloaded ∧
      f.id ∉ (dump_and_delete_similar download del files keep).deleted_from_drive ∧
      space_freed_bytes (dump_and_delete_similar download del files keep)
        = specFreedBytes download del keep files) := by
  have hdel : delete_file (del f.id) = false := by rw [hpd]; rfl
  have hmm := dumpLoop_mem_of_get? download del keep files 0 i f hget
    (by simpa using hne) hd hdel
  have hdelnot : f.id ∉ (dumpLoop download del keep 0 files).deleted_from_drive := by
    intro hmem
    obtain ⟨g, hg, hge, hgd⟩ := dumpLoop_deleted_sub download del keep files 0 _ hmem
    have hf : f ∈ files := List.get?_mem hget
    have hgf : g = f := List.inj_on_of_nodup_map hnd hg hf (by rw [hge])
    rw [hgf, hdel] at hgd
    cases hgd
  have hsf := dumpLoop_space_freed download del keep files 0 hnd
  have ho : memberOutcome download del keep i f
      = DisposalOutcome.downloadedPermissionDenied := by
    simp [memberOutcome, hne, hd, hdel]
  exact ⟨⟨hmm.1, hmm.2, hdelnot, hsf, ho⟩, hmm.1, hmm.2, hdelnot, hsf⟩

/-- Witness for C5 at a concrete input: the second file of a pair downloads
but its delete is PermissionDenied; the first file (survivor) aside, nothing
is deleted and no bytes are freed. -/
theorem c5_permission_denied_witness :
    (⟨"b", "n2", "no_permission"⟩ : SkipRec)
        ∈ (dump_and_delete_duplicates (fun _ => true)
            (fun _ => DeleteOutcome.permissionDenied)
            [⟨"a", "n1", 3, some "h"⟩, ⟨"b", "n2", 3, some "h"⟩] 0).skipped_no_permission ∧
    (⟨"b", "n2", 3⟩ : DlRec)
        ∈ (dump_and_delete_duplicates (fun _ => true)
            (fun _ => DeleteOutcome.permissionDenied)
            [⟨"a", "n1", 3, some "h"⟩, ⟨"b", "n2", 3, some "h"⟩] 0).downloaded ∧
    "b" ∉ (dump_and_delete_duplicates (fun _ => true)
            (fun _ => DeleteOutcome.permissionDenied)
            [⟨"a", "n1", 3, some "h"⟩, ⟨"b", "n2", 3, some "h"⟩] 0).deleted_from_drive ∧
    space_freed_bytes (dump_and_delete_duplicates (fun _ => true)
            (fun _ => DeleteOutcome.permissionDenied)
            [⟨"a", "n1", 3, some "h"⟩, ⟨"b", "n2", 3, some "h"⟩] 0)
      = specFreedBytes (fun _ => true) (fun _ => DeleteOutcome.permissionDenied) 0
          [⟨"a", "n1", 3, some "h"⟩, ⟨"b", "n2", 3, some "h"⟩] ∧
    memberOutcome (fun _ => true) (fun _ => DeleteOutcome.permissionDenied) 0 1
        ⟨"b", "n2", 3, some "h"⟩
      = DisposalOutcome.downloadedPermissionDenied :=
  (c5_permission_denied_accounting (fun _ => true)
    (fun _ => DeleteOutcome.permissionDenied)
    [⟨"a", "n1", 3, some "h"⟩, ⟨"b", "n2", 3, some "h"⟩] 0 1 ⟨"b", "n2", 3, some "h"⟩
    rfl (by decide) rfl rfl (by decide)).1

/-- C6 counterexample: an email with two large attachments (5 and 7 bytes,
total 12) where only the first download succeeds and the trash succeeds:
Gmail's reported `space_freed_mb` is the FULL 12-byte total over 2^20, not
the 5-byte sum of downloaded-and-removed members claimed. -/
theorem c6_counterexample :
    (dump_and_delete_emails (fun _ attId => attId == "a1") (fun _ => true)
        ⟨"m1", "s", [⟨"a1", "f1.bin", 5⟩, ⟨"a2", "f2.bin", 7⟩], 12⟩).downloaded
      = [⟨"f1.bin", 5⟩] ∧
    (dump_and_delete_emails (fun _ attId => attId == "a1") (fun _ => true)
        ⟨"m1", "s", [⟨"a1", "f1.bin", 5⟩, ⟨"a2", "f2.bin", 7⟩], 12⟩).deleted = true ∧
    (dump_and_delete_emails (fun _ attId => attId == "a1") (fun _ => true)
        ⟨"m1", "s", [⟨"a1", "f1.bin", 5⟩, ⟨"a2", "f2.bin", 7⟩], 12⟩).space_freed_mb
      ≠ (((dump_and_delete_emails (fun _ attId => attId == "a1") (fun _ => true)
            ⟨"m1", "s", [⟨"a1", "f1.bin", 5⟩, ⟨"a2", "f2.bin", 7⟩], 12⟩).downloaded.map
          (fun d => (d.size : ℚ))).sum) / (1024 * 1024) := by
  have e2 : (dump_and_delete_emails (fun _ attId => attId == "a1") (fun _ => true)
      ⟨"m1", "s", [⟨"a1", "f1.bin", 5⟩, ⟨"a2", "f2.bin", 7⟩], 12⟩).downloaded
      = [⟨"f1.bin", 5⟩] := by decide
  refine ⟨e2, rfl, ?_⟩
  rw [e2]
  have e1 : (dump_and_delete_emails (fun _ attId => attId == "a1") (fun _ => true)
      ⟨"m1", "s", [⟨"a1", "f1.bin", 5⟩, ⟨"a2", "f2.bin", 7⟩], 12⟩).space_freed_mb
      = ((12 : Nat) : ℚ) / (1024 * 1024) := by
    simp [dump_and_delete_emails]
  rw [e1]
  norm_num

/-- C6 (amended): in both Drive executors the reported freed bytes equal the
sum of sizes of members with outcome DownloadedAndDeleted (given unique
object ids).  The Gmail executor instead reports the email's ENTIRE
large-attachment total as freed whenever the trash succeeded — including
attachments whose download failed — and 0 when the trash failed. -/
theorem c6_space_freed_accounting :
    (∀ (download : String → Bool) (del : String → DeleteOutcome)
        (files : List DriveFile) (keep : Nat),
      (files.map (fun f => f.id)).Nodup →
      space_freed_bytes (dump_and_delete_duplicates download del files keep)
        = specFreedBytes download del keep files) ∧
    (∀ (download : String → Bool) (del : String → DeleteOutcome)
        (files : List DriveFile) (keep : Nat),
      (files.map (fun f => f.id)).Nodup →
      space_freed_bytes (dump_and_delete_similar download del files keep)
        = specFreedBytes download del keep files) ∧
    (∀ (downloadAtt : String → String → Bool) (trash : String → Bool)
        (email : GEmail),
      (dump_and_delete_emails downloadAtt trash email).space_freed_mb
        = if trash email.id
            then (email.total_attachment_size_bytes : ℚ) / (1024 * 1024)
            else 0) :=
  ⟨fun download del files keep hnd => dumpLoop_space_freed download del keep files 0 hnd,
   fun download del files keep hnd => dumpLoop_space_freed download del keep files 0 hnd,
   fun _ _ _ => rfl⟩

/-- Witness for C6 at a concrete input: two files, survivor kept, the other
downloaded and deleted: 3 bytes freed on both sides of the equation. -/
theorem c6_space_freed_witness :
    space_freed_bytes (dump_and_delete_duplicates (fun _ => true)
        (fun _ => DeleteOutcome.success)
        [⟨"a", "n1", 5, some "h"⟩, ⟨"b", "n2", 3, some "h"⟩] 0)
      = specFreedBytes (fun _ => true) (fun _ => DeleteOutcome.success) 0
          [⟨"a", "n1", 5, some "h"⟩, ⟨"b", "n2", 3, some "h"⟩] :=
  c6_space_freed_accounting.1 (fun _ => true) (fun _ => DeleteOutcome.success)
    [⟨"a", "n1", 5, some "h"⟩, ⟨"b", "n2", 3, some "h"⟩] 0 (by decide)

end DriveDeepClean
